import Mathlib

/-!
Verification of the `EvidenceStorage` Solidity contract
(`src/contracts/EvidenceStorage.sol`, second contract in the file,
lines 166-366), a registry of evidence records with an access-request /
grant / reject / revoke permission ledger.  The contract state is embedded
shallowly: Solidity `mapping`s become total functions with the zero
default, dynamic arrays become lists, `require` failures become
`Except.error` carrying the exact revert string, and `msg.sender` /
`block.timestamp` are explicit parameters.  Transactional (revert)
semantics of the EVM are captured by `execOp`, which discards all effects
of a failed call.
-/

/-- Addresses are modelled as naturals; `0` plays the role of `address(0)`. -/
abbrev Address := Nat

/-- Mirror of `struct Evidence` (EvidenceStorage.sol lines 170-182).
Solidity mappings inside the struct become total boolean functions,
dynamic arrays become lists. -/
structure Evidence where
  id : Nat
  victim : Address
  ipfsHash : String
  encryptedKey : String
  timestamp : Nat
  description : String
  isActive : Bool
  accessPermissions : Address → Bool
  hasRequested : Address → Bool
  permissionRequests : List Address
  grantedUsers : List Address

/-- Solidity default value of `Evidence`: all fields zeroed. -/
def Evidence.empty : Evidence :=
  { id := 0, victim := 0, ipfsHash := "", encryptedKey := "", timestamp := 0,
    description := "", isActive := false,
    accessPermissions := fun _ => false, hasRequested := fun _ => false,
    permissionRequests := [], grantedUsers := [] }

/-- Mirror of `struct EvidenceView` (lines 184-194). -/
structure EvidenceView where
  id : Nat
  victim : Address
  ipfsHash : String
  encryptedKey : String
  timestamp : Nat
  description : String
  isActive : Bool
  hasAccess : Bool
  hasRequested : Bool
deriving DecidableEq, Repr

/-- Mirror of the contract's events (lines 200-204). -/
inductive Event where
  | EvidenceSubmitted (evidenceId : Nat) (victim : Address) (ipfsHash : String)
  | AccessRequested (evidenceId : Nat) (requester : Address)
  | AccessGranted (evidenceId : Nat) (requester : Address)
  | AccessRevoked (evidenceId : Nat) (user : Address)
  | AccessRejected (evidenceId : Nat) (user : Address)
deriving DecidableEq, Repr

/-- Contract storage (lines 196-198): the `evidences` mapping (with the
Solidity zero-struct default), the per-owner index, and the id counter. -/
structure ContractState where
  evidences : Nat → Evidence
  userEvidences : Address → List Nat
  evidenceCounter : Nat

/-- Freshly deployed contract: every storage slot holds its zero value. -/
def initialState : ContractState :=
  { evidences := fun _ => Evidence.empty,
    userEvidences := fun _ => [],
    evidenceCounter := 0 }

/-- Point update of the `evidences` mapping. -/
def ContractState.setEvidence (s : ContractState) (evidenceId : Nat)
    (e : Evidence) : ContractState :=
  { s with evidences := fun i => if i = evidenceId then e else s.evidences i }

/-- Modifier `evidenceExists` (lines 206-209): the record exists iff its
`victim` field is a nonzero address. -/
def evidenceExistsB (s : ContractState) (evidenceId : Nat) : Bool :=
  (s.evidences evidenceId).victim ≠ 0

/-- Function `submitEvidence` (lines 216-237).  Increments the counter,
stores the new record under the fresh id, indexes it under the sender, and
returns the id together with the emitted event.  It has no failure path. -/
def submitEvidence (s : ContractState) (sender : Address)
    (ipfsHash encryptedKey description : String) (blockTimestamp : Nat) :
    ContractState × List Event × Nat :=
  let evidenceId := s.evidenceCounter + 1
  let newEvidence : Evidence :=
    { id := evidenceId, victim := sender, ipfsHash := ipfsHash,
      encryptedKey := encryptedKey, timestamp := blockTimestamp,
      description := description, isActive := true,
      accessPermissions := fun _ => false, hasRequested := fun _ => false,
      permissionRequests := [], grantedUsers := [] }
  let s1 := { s with evidenceCounter := evidenceId }
  let s2 := s1.setEvidence evidenceId newEvidence
  let s3 := { s2 with userEvidences := fun a =>
      if a = sender then s2.userEvidences a ++ [evidenceId]
      else s2.userEvidences a }
  (s3, [Event.EvidenceSubmitted evidenceId sender ipfsHash], evidenceId)

/-- Function `requestAccess` (lines 239-249).  Guards in source order:
the `evidenceExists` modifier, then the three `require`s; on success sets
`hasRequested[sender]`, appends to `permissionRequests` and emits. -/
def requestAccess (s : ContractState) (sender : Address) (evidenceId : Nat) :
    Except String (ContractState × List Event) :=
  if (s.evidences evidenceId).victim = 0 then
    .error "Evidence does not exist"
  else
    let evi := s.evidences evidenceId
    if evi.victim = sender then
      .error "Victim already has access"
    else if evi.hasRequested sender then
      .error "Already requested"
    else if evi.accessPermissions sender then
      .error "Already granted"
    else
      let evi' := { evi with
        hasRequested := fun u => if u = sender then true else evi.hasRequested u,
        permissionRequests := evi.permissionRequests ++ [sender] }
      .ok (s.setEvidence evidenceId evi', [Event.AccessRequested evidenceId sender])

/-- Function `grantAccess` (lines 251-264).  Modifiers run in declaration
order: `onlyVictim` first (lines 211-214), then `evidenceExists`; then the
pending-request `require`; on success sets the permission flag, clears the
request flag and appends to `grantedUsers`.  Nothing is removed from
`permissionRequests`. -/
def grantAccess (s : ContractState) (sender : Address) (evidenceId : Nat)
    (user : Address) : Except String (ContractState × List Event) :=
  if (s.evidences evidenceId).victim ≠ sender then
    .error "Only victim can perform this action"
  else if (s.evidences evidenceId).victim = 0 then
    .error "Evidence does not exist"
  else
    let evi := s.evidences evidenceId
    if ¬ evi.hasRequested user then
      .error "User did not request access"
    else
      let evi' := { evi with
        accessPermissions := fun u => if u = user then true else evi.accessPermissions u,
        hasRequested := fun u => if u = user then false else evi.hasRequested u,
        grantedUsers := evi.grantedUsers ++ [user] }
      .ok (s.setEvidence evidenceId evi', [Event.AccessGranted evidenceId user])

/-- Function `rejectAccess` (lines 266-276).  Clears the request flag of a
pending user; `permissionRequests` is left untouched. -/
def rejectAccess (s : ContractState) (sender : Address) (evidenceId : Nat)
    (user : Address) : Except String (ContractState × List Event) :=
  if (s.evidences evidenceId).victim ≠ sender then
    .error "Only victim can perform this action"
  else if (s.evidences evidenceId).victim = 0 then
    .error "Evidence does not exist"
  else
    let evi := s.evidences evidenceId
    if ¬ evi.hasRequested user then
      .error "No pending request found"
    else
      let evi' := { evi with
        hasRequested := fun u => if u = user then false else evi.hasRequested u }
      .ok (s.setEvidence evidenceId evi', [Event.AccessRejected evidenceId user])

/-- Function `revokeAccess` of the second contract (lines 278-285).  After
the two modifiers it unconditionally clears `accessPermissions[user]` and
emits; there is no check that the user was granted, and `grantedUsers` is
left untouched. -/
def revokeAccess (s : ContractState) (sender : Address) (evidenceId : Nat)
    (user : Address) : Except String (ContractState × List Event) :=
  if (s.evidences evidenceId).victim ≠ sender then
    .error "Only victim can perform this action"
  else if (s.evidences evidenceId).victim = 0 then
    .error "Evidence does not exist"
  else
    let evi := s.evidences evidenceId
    let evi' := { evi with
      accessPermissions := fun u => if u = user then false else evi.accessPermissions u }
    .ok (s.setEvidence evidenceId evi', [Event.AccessRevoked evidenceId user])

/-- Function `revokeAccess` of the FIRST contract in the same source file
(lines 104-113), which differs from the second one in requiring
`accessPermissions[user]` before clearing it
(`require(e.accessPermissions[user], "User has no access to revoke")`). -/
def revokeAccessChecked (s : ContractState) (sender : Address) (evidenceId : Nat)
    (user : Address) : Except String (ContractState × List Event) :=
  if (s.evidences evidenceId).victim ≠ sender then
    .error "Only victim can perform this action"
  else if (s.evidences evidenceId).victim = 0 then
    .error "Evidence does not exist"
  else
    let evi := s.evidences evidenceId
    if ¬ evi.accessPermissions user then
      .error "User has no access to revoke"
    else
      let evi' := { evi with
        accessPermissions := fun u => if u = user then false else evi.accessPermissions u }
      .ok (s.setEvidence evidenceId evi', [Event.AccessRevoked evidenceId user])

/-- View `getEvidence` (lines 287-308): a caller-specific projection that
replaces `ipfsHash` and `encryptedKey` with `""` when the caller is neither
the victim nor permission-flagged. -/
def getEvidence (s : ContractState) (sender : Address) (evidenceId : Nat) :
    Except String EvidenceView :=
  if (s.evidences evidenceId).victim = 0 then
    .error "Evidence does not exist"
  else
    let evi := s.evidences evidenceId
    let hasAccess := sender = evi.victim || evi.accessPermissions sender
    let hasReq := evi.hasRequested sender
    .ok { id := evi.id, victim := evi.victim,
          ipfsHash := if hasAccess then evi.ipfsHash else "",
          encryptedKey := if hasAccess then evi.encryptedKey else "",
          timestamp := evi.timestamp, description := evi.description,
          isActive := evi.isActive, hasAccess := hasAccess,
          hasRequested := hasReq }

/-- View `getUserEvidences` (lines 334-336). -/
def getUserEvidences (s : ContractState) (user : Address) : List Nat :=
  s.userEvidences user

/-- View `getPermissionRequests` (lines 338-346): victim-only enumeration
of the raw `permissionRequests` array. -/
def getPermissionRequests (s : ContractState) (sender : Address)
    (evidenceId : Nat) : Except String (List Address) :=
  if (s.evidences evidenceId).victim ≠ sender then
    .error "Only victim can perform this action"
  else if (s.evidences evidenceId).victim = 0 then
    .error "Evidence does not exist"
  else
    .ok (s.evidences evidenceId).permissionRequests

/-- View `getGrantedUsers` (lines 348-356): victim-only enumeration of the
raw `grantedUsers` array. -/
def getGrantedUsers (s : ContractState) (sender : Address)
    (evidenceId : Nat) : Except String (List Address) :=
  if (s.evidences evidenceId).victim ≠ sender then
    .error "Only victim can perform this action"
  else if (s.evidences evidenceId).victim = 0 then
    .error "Evidence does not exist"
  else
    .ok (s.evidences evidenceId).grantedUsers

/-- View `hasAccessPermission` (lines 358-365): true iff the user is the
victim or permission-flagged. -/
def hasAccessPermission (s : ContractState) (evidenceId : Nat)
    (user : Address) : Except String Bool :=
  if (s.evidences evidenceId).victim = 0 then
    .error "Evidence does not exist"
  else
    .ok ((s.evidences evidenceId).victim = user
          || (s.evidences evidenceId).accessPermissions user)

/-- The mutating entry points of the contract, each carrying its
`msg.sender` (and `block.timestamp` for submission). -/
inductive Op where
  | submit (sender : Address) (ipfsHash encryptedKey description : String)
      (blockTimestamp : Nat)
  | request (sender : Address) (evidenceId : Nat)
  | grant (sender : Address) (evidenceId : Nat) (user : Address)
  | reject (sender : Address) (evidenceId : Nat) (user : Address)
  | revoke (sender : Address) (evidenceId : Nat) (user : Address)

/-- Transactional execution of one call: a reverted call (an
`Except.error`) leaves storage unchanged and emits nothing, returning the
revert string; a successful call commits the new storage and its events. -/
def execOp (s : ContractState) : Op → ContractState × List Event × Option String
  | .submit sender h k d t =>
      let r := submitEvidence s sender h k d t
      (r.1, r.2.1, none)
  | .request sender evidenceId =>
      match requestAccess s sender evidenceId with
      | .ok (s', evs) => (s', evs, none)
      | .error e => (s, [], some e)
  | .grant sender evidenceId user =>
      match grantAccess s sender evidenceId user with
      | .ok (s', evs) => (s', evs, none)
      | .error e => (s, [], some e)
  | .reject sender evidenceId user =>
      match rejectAccess s sender evidenceId user with
      | .ok (s', evs) => (s', evs, none)
      | .error e => (s, [], some e)
  | .revoke sender evidenceId user =>
      match revokeAccess s sender evidenceId user with
      | .ok (s', evs) => (s', evs, none)
      | .error e => (s, [], some e)

/-- Run a sequence of calls, keeping only the final storage. -/
def execTrace (s : ContractState) : List Op → ContractState
  | [] => s
  | op :: ops => execTrace (execOp s op).1 ops

/-- Check that every call in a sequence succeeds (none of them reverts). -/
def traceOk (s : ContractState) : List Op → Bool
  | [] => true
  | op :: ops =>
      let r := execOp s op
      r.2.2.isNone && traceOk r.1 ops

/-- Ids returned by the `submitEvidence` calls of a sequence, in order. -/
def submitIds (s : ContractState) : List Op → List Nat
  | [] => []
  | op :: ops =>
      match op with
      | .submit sender h k d t =>
          let r := submitEvidence s sender h k d t
          r.2.2 :: submitIds r.1 ops
      | _ => submitIds (execOp s op).1 ops

/-- Number of `submitEvidence` calls in a sequence. -/
def numSubmits : List Op → Nat
  | [] => 0
  | op :: ops =>
      match op with
      | .submit .. => numSubmits ops + 1
      | _ => numSubmits ops

/-- Inductive invariant of the contract storage, established at deployment
and preserved by every call: storage slots beyond the counter are still
zeroed, a record's victim is never request-flagged and never appears in
either enumeration array, and no user is simultaneously request-flagged
and permission-flagged on the same record. -/
structure LedgerInv (s : ContractState) : Prop where
  fresh : ∀ evidenceId, s.evidenceCounter < evidenceId →
    s.evidences evidenceId = Evidence.empty
  victimNotReq : ∀ evidenceId,
    (s.evidences evidenceId).hasRequested (s.evidences evidenceId).victim = false
  victimNotPR : ∀ evidenceId,
    (s.evidences evidenceId).victim ∉ (s.evidences evidenceId).permissionRequests
  victimNotGU : ∀ evidenceId,
    (s.evidences evidenceId).victim ∉ (s.evidences evidenceId).grantedUsers
  excl : ∀ evidenceId u,
    ((s.evidences evidenceId).hasRequested u
      && (s.evidences evidenceId).accessPermissions u) = false

/-! Helper lemmas: projections of `setEvidence` and `submitEvidence`, and
characterizations of the successful runs of the four permission mutators. -/

theorem setEvidence_evidences (s : ContractState) (i : Nat) (e : Evidence) (j : Nat) :
    ((s.setEvidence i e).evidences j) = if j = i then e else s.evidences j := rfl

theorem setEvidence_counter (s : ContractState) (i : Nat) (e : Evidence) :
    (s.setEvidence i e).evidenceCounter = s.evidenceCounter := rfl

theorem submitEvidence_counter (s : ContractState) (sender : Address)
    (h k d : String) (t : Nat) :
    (submitEvidence s sender h k d t).1.evidenceCounter = s.evidenceCounter + 1 := rfl

theorem submitEvidence_evidences (s : ContractState) (sender : Address)
    (h k d : String) (t : Nat) (i : Nat) :
    (submitEvidence s sender h k d t).1.evidences i
      = if i = s.evidenceCounter + 1 then
          { id := s.evidenceCounter + 1, victim := sender, ipfsHash := h,
            encryptedKey := k, timestamp := t, description := d, isActive := true,
            accessPermissions := fun _ => false, hasRequested := fun _ => false,
            permissionRequests := [], grantedUsers := [] }
        else s.evidences i := rfl

theorem requestAccess_ok {s : ContractState} {sender : Address} {evidenceId : Nat}
    {s' : ContractState} {evs : List Event}
    (h : requestAccess s sender evidenceId = .ok (s', evs)) :
    (s.evidences evidenceId).victim ≠ 0 ∧
    (s.evidences evidenceId).victim ≠ sender ∧
    (s.evidences evidenceId).hasRequested sender = false ∧
    (s.evidences evidenceId).accessPermissions sender = false ∧
    s' = s.setEvidence evidenceId
      { s.evidences evidenceId with
        hasRequested := fun u => if u = sender then true
          else (s.evidences evidenceId).hasRequested u,
        permissionRequests := (s.evidences evidenceId).permissionRequests ++ [sender] } ∧
    evs = [Event.AccessRequested evidenceId sender] := by
  simp only [requestAccess] at h
  split at h
  · exact Except.noConfusion h
  · split at h
    · exact Except.noConfusion h
    · split at h
      · exact Except.noConfusion h
      · split at h
        · exact Except.noConfusion h
        · simp only [Except.ok.injEq, Prod.mk.injEq] at h
          rename_i h1 h2 h3 h4
          exact ⟨h1, h2, by simpa using h3, by simpa using h4, h.1.symm, h.2.symm⟩

theorem grantAccess_ok {s : ContractState} {sender user : Address} {evidenceId : Nat}
    {s' : ContractState} {evs : List Event}
    (h : grantAccess s sender evidenceId user = .ok (s', evs)) :
    (s.evidences evidenceId).victim = sender ∧
    (s.evidences evidenceId).victim ≠ 0 ∧
    (s.evidences evidenceId).hasRequested user = true ∧
    s' = s.setEvidence evidenceId
      { s.evidences evidenceId with
        accessPermissions := fun u => if u = user then true
          else (s.evidences evidenceId).accessPermissions u,
        hasRequested := fun u => if u = user then false
          else (s.evidences evidenceId).hasRequested u,
        grantedUsers := (s.evidences evidenceId).grantedUsers ++ [user] } ∧
    evs = [Event.AccessGranted evidenceId user] := by
  simp only [grantAccess] at h
  split at h
  · exact Except.noConfusion h
  · split at h
    · exact Except.noConfusion h
    · split at h
      · exact Except.noConfusion h
      · simp only [Except.ok.injEq, Prod.mk.injEq] at h
        rename_i h1 h2 h3
        exact ⟨by simpa using h1, h2, by simpa using h3, h.1.symm, h.2.symm⟩

theorem rejectAccess_ok {s : ContractState} {sender user : Address} {evidenceId : Nat}
    {s' : ContractState} {evs : List Event}
    (h : rejectAccess s sender evidenceId user = .ok (s', evs)) :
    (s.evidences evidenceId).victim = sender ∧
    (s.evidences evidenceId).victim ≠ 0 ∧
    (s.evidences evidenceId).hasRequested user = true ∧
    s' = s.setEvidence evidenceId
      { s.evidences evidenceId with
        hasRequested := fun u => if u = user then false
          else (s.evidences evidenceId).hasRequested u } ∧
    evs = [Event.AccessRejected evidenceId user] := by
  simp only [rejectAccess] at h
  split at h
  · exact Except.noConfusion h
  · split at h
    · exact Except.noConfusion h
    · split at h
      · exact Except.noConfusion h
      · simp only [Except.ok.injEq, Prod.mk.injEq] at h
        rename_i h1 h2 h3
        exact ⟨by simpa using h1, h2, by simpa using h3, h.1.symm, h.2.symm⟩

theorem revokeAccess_ok {s : ContractState} {sender user : Address} {evidenceId : Nat}
    {s' : ContractState} {evs : List Event}
    (h : revokeAccess s sender evidenceId user = .ok (s', evs)) :
    (s.evidences evidenceId).victim = sender ∧
    (s.evidences evidenceId).victim ≠ 0 ∧
    s' = s.setEvidence evidenceId
      { s.evidences evidenceId with
        accessPermissions := fun u => if u = user then false
          else (s.evidences evidenceId).accessPermissions u } ∧
    evs = [Event.AccessRevoked evidenceId user] := by
  simp only [revokeAccess] at h
  split at h
  · exact Except.noConfusion h
  · split at h
    · exact Except.noConfusion h
    · simp only [Except.ok.injEq, Prod.mk.injEq] at h
      rename_i h1 h2
      exact ⟨by simpa using h1, h2, h.1.symm, h.2.symm⟩

theorem requestAccess_error {s : ContractState} {sender : Address} {evidenceId : Nat}
    {e : String} (h : requestAccess s sender evidenceId = .error e) :
    (s.evidences evidenceId).victim = 0 ∨
    (s.evidences evidenceId).victim = sender ∨
    (s.evidences evidenceId).hasRequested sender = true ∨
    (s.evidences evidenceId).accessPermissions sender = true := by
  simp only [requestAccess] at h
  split at h
  · exact Or.inl ‹_›
  · split at h
    · exact Or.inr (Or.inl ‹_›)
    · split at h
      · exact Or.inr (Or.inr (Or.inl ‹_›))
      · split at h
        · exact Or.inr (Or.inr (Or.inr ‹_›))
        · exact Except.noConfusion h

theorem grantAccess_error {s : ContractState} {sender user : Address} {evidenceId : Nat}
    {e : String} (h : grantAccess s sender evidenceId user = .error e) :
    (s.evidences evidenceId).victim ≠ sender ∨
    (s.evidences evidenceId).victim = 0 ∨
    (s.evidences evidenceId).hasRequested user = false := by
  simp only [grantAccess] at h
  split at h
  · exact Or.inl ‹_›
  · split at h
    · exact Or.inr (Or.inl ‹_›)
    · split at h
      · rename_i h3
        exact Or.inr (Or.inr (by simpa using h3))
      · exact Except.noConfusion h

theorem revokeAccess_error {s : ContractState} {sender user : Address} {evidenceId : Nat}
    {e : String} (h : revokeAccess s sender evidenceId user = .error e) :
    (s.evidences evidenceId).victim ≠ sender ∨
    (s.evidences evidenceId).victim = 0 := by
  simp only [revokeAccess] at h
  split at h
  · exact Or.inl ‹_›
  · split at h
    · exact Or.inr ‹_›
    · exact Except.noConfusion h

theorem requestAccess_ok_of {s : ContractState} {sender : Address} {evidenceId : Nat}
    (h1 : (s.evidences evidenceId).victim ≠ 0)
    (h2 : (s.evidences evidenceId).victim ≠ sender)
    (h3 : (s.evidences evidenceId).hasRequested sender = false)
    (h4 : (s.evidences evidenceId).accessPermissions sender = false) :
    requestAccess s sender evidenceId
      = .ok (s.setEvidence evidenceId
          { s.evidences evidenceId with
            hasRequested := fun u => if u = sender then true
              else (s.evidences evidenceId).hasRequested u,
            permissionRequests := (s.evidences evidenceId).permissionRequests ++ [sender] },
          [Event.AccessRequested evidenceId sender]) := by
  cases hh : requestAccess s sender evidenceId with
  | error e =>
      rcases requestAccess_error hh with hc | hc | hc | hc
      · exact absurd hc h1
      · exact absurd hc h2
      · rw [h3] at hc; exact Bool.noConfusion hc
      · rw [h4] at hc; exact Bool.noConfusion hc
  | ok r =>
      obtain ⟨s', evs⟩ := r
      obtain ⟨-, -, -, -, hs, he⟩ := requestAccess_ok hh
      rw [hs, he]

theorem grantAccess_ok_of {s : ContractState} {sender user : Address} {evidenceId : Nat}
    (h1 : (s.evidences evidenceId).victim = sender)
    (h2 : (s.evidences evidenceId).victim ≠ 0)
    (h3 : (s.evidences evidenceId).hasRequested user = true) :
    grantAccess s sender evidenceId user
      = .ok (s.setEvidence evidenceId
          { s.evidences evidenceId with
            accessPermissions := fun u => if u = user then true
              else (s.evidences evidenceId).accessPermissions u,
            hasRequested := fun u => if u = user then false
              else (s.evidences evidenceId).hasRequested u,
            grantedUsers := (s.evidences evidenceId).grantedUsers ++ [user] },
          [Event.AccessGranted evidenceId user]) := by
  cases hh : grantAccess s sender evidenceId user with
  | error e =>
      rcases grantAccess_error hh with hc | hc | hc
      · exact absurd h1 hc
      · exact absurd hc h2
      · rw [h3] at hc; exact Bool.noConfusion hc
  | ok r =>
      obtain ⟨s', evs⟩ := r
      obtain ⟨-, -, -, hs, he⟩ := grantAccess_ok hh
      rw [hs, he]

theorem revokeAccess_ok_of {s : ContractState} {sender user : Address} {evidenceId : Nat}
    (h1 : (s.evidences evidenceId).victim = sender)
    (h2 : (s.evidences evidenceId).victim ≠ 0) :
    revokeAccess s sender evidenceId user
      = .ok (s.setEvidence evidenceId
          { s.evidences evidenceId with
            accessPermissions := fun u => if u = user then false
              else (s.evidences evidenceId).accessPermissions u },
          [Event.AccessRevoked evidenceId user]) := by
  cases hh : revokeAccess s sender evidenceId user with
  | error e =>
      rcases revokeAccess_error hh with hc | hc
      · exact absurd h1 hc
      · exact absurd hc h2
  | ok r =>
      obtain ⟨s', evs⟩ := r
      obtain ⟨-, -, hs, he⟩ := revokeAccess_ok hh
      rw [hs, he]

theorem ledgerInv_initial : LedgerInv initialState := by
  refine ⟨?_, ?_, ?_, ?_, ?_⟩
  · intro evidenceId _; rfl
  · intro evidenceId; rfl
  · intro evidenceId; simp [initialState, Evidence.empty]
  · intro evidenceId; simp [initialState, Evidence.empty]
  · intro evidenceId u; rfl

theorem ledgerInv_submit {s : ContractState} (hI : LedgerInv s) (sender : Address)
    (h k d : String) (t : Nat) :
    LedgerInv (submitEvidence s sender h k d t).1 := by
  refine ⟨?_, ?_, ?_, ?_, ?_⟩
  · intro evidenceId hlt
    rw [submitEvidence_counter] at hlt
    rw [submitEvidence_evidences, if_neg (by omega)]
    exact hI.fresh evidenceId (by omega)
  · intro evidenceId
    rw [submitEvidence_evidences]
    split
    · rfl
    · exact hI.victimNotReq evidenceId
  · intro evidenceId
    rw [submitEvidence_evidences]
    split
    · simp
    · exact hI.victimNotPR evidenceId
  · intro evidenceId
    rw [submitEvidence_evidences]
    split
    · simp
    · exact hI.victimNotGU evidenceId
  · intro evidenceId u
    rw [submitEvidence_evidences]
    split
    · rfl
    · exact hI.excl evidenceId u

theorem ledgerInv_request {s s' : ContractState} {sender : Address} {evidenceId : Nat}
    {evs : List Event} (hI : LedgerInv s)
    (h : requestAccess s sender evidenceId = .ok (s', evs)) : LedgerInv s' := by
  obtain ⟨h0, hvs, hreq, hperm, hs, -⟩ := requestAccess_ok h
  subst hs
  refine ⟨?_, ?_, ?_, ?_, ?_⟩
  · intro j hlt
    rw [setEvidence_counter] at hlt
    rw [setEvidence_evidences]
    split
    · rename_i hj
      subst hj
      exact absurd (by rw [hI.fresh j hlt]; rfl) h0
    · exact hI.fresh j hlt
  · intro j
    rw [setEvidence_evidences]
    split
    · simpa [hvs] using hI.victimNotReq evidenceId
    · exact hI.victimNotReq j
  · intro j
    rw [setEvidence_evidences]
    split
    · simpa [hvs] using hI.victimNotPR evidenceId
    · exact hI.victimNotPR j
  · intro j
    rw [setEvidence_evidences]
    split
    · exact hI.victimNotGU evidenceId
    · exact hI.victimNotGU j
  · intro j u
    rw [setEvidence_evidences]
    split
    · by_cases hu : u = sender
      · subst hu
        simp [hperm]
      · simpa [hu] using hI.excl evidenceId u
    · exact hI.excl j u

theorem ledgerInv_grant {s s' : ContractState} {sender user : Address} {evidenceId : Nat}
    {evs : List Event} (hI : LedgerInv s)
    (h : grantAccess s sender evidenceId user = .ok (s', evs)) : LedgerInv s' := by
  obtain ⟨hvic, h0, hreq, hs, -⟩ := grantAccess_ok h
  have huser : user ≠ (s.evidences evidenceId).victim := by
    intro he
    rw [he, hI.victimNotReq evidenceId] at hreq
    exact Bool.noConfusion hreq
  subst hs
  refine ⟨?_, ?_, ?_, ?_, ?_⟩
  · intro j hlt
    rw [setEvidence_counter] at hlt
    rw [setEvidence_evidences]
    split
    · rename_i hj
      subst hj
      exact absurd (by rw [hI.fresh j hlt]; rfl) h0
    · exact hI.fresh j hlt
  · intro j
    rw [setEvidence_evidences]
    split
    · simpa [Ne.symm huser] using hI.victimNotReq evidenceId
    · exact hI.victimNotReq j
  · intro j
    rw [setEvidence_evidences]
    split
    · exact hI.victimNotPR evidenceId
    · exact hI.victimNotPR j
  · intro j
    rw [setEvidence_evidences]
    split
    · simpa [Ne.symm huser] using hI.victimNotGU evidenceId
    · exact hI.victimNotGU j
  · intro j u
    rw [setEvidence_evidences]
    split
    · by_cases hu : u = user
      · subst hu
        simp
      · simpa [hu] using hI.excl evidenceId u
    · exact hI.excl j u

theorem ledgerInv_reject {s s' : ContractState} {sender user : Address} {evidenceId : Nat}
    {evs : List Event} (hI : LedgerInv s)
    (h : rejectAccess s sender evidenceId user = .ok (s', evs)) : LedgerInv s' := by
  obtain ⟨hvic, h0, hreq, hs, -⟩ := rejectAccess_ok h
  subst hs
  refine ⟨?_, ?_, ?_, ?_, ?_⟩
  · intro j hlt
    rw [setEvidence_counter] at hlt
    rw [setEvidence_evidences]
    split
    · rename_i hj
      subst hj
      exact absurd (by rw [hI.fresh j hlt]; rfl) h0
    · exact hI.fresh j hlt
  · intro j
    rw [setEvidence_evidences]
    split
    · by_cases hv : (s.evidences evidenceId).victim = user
      · simp [hv]
      · simpa [hv] using hI.victimNotReq evidenceId
    · exact hI.victimNotReq j
  · intro j
    rw [setEvidence_evidences]
    split
    · exact hI.victimNotPR evidenceId
    · exact hI.victimNotPR j
  · intro j
    rw [setEvidence_evidences]
    split
    · exact hI.victimNotGU evidenceId
    · exact hI.victimNotGU j
  · intro j u
    rw [setEvidence_evidences]
    split
    · by_cases hu : u = user
      · subst hu
        simp
      · simpa [hu] using hI.excl evidenceId u
    · exact hI.excl j u

theorem ledgerInv_revoke {s s' : ContractState} {sender user : Address} {evidenceId : Nat}
    {evs : List Event} (hI : LedgerInv s)
    (h : revokeAccess s sender evidenceId user = .ok (s', evs)) : LedgerInv s' := by
  obtain ⟨hvic, h0, hs, -⟩ := revokeAccess_ok h
  subst hs
  refine ⟨?_, ?_, ?_, ?_, ?_⟩
  · intro j hlt
    rw [setEvidence_counter] at hlt
    rw [setEvidence_evidences]
    split
    · rename_i hj
      subst hj
      exact absurd (by rw [hI.fresh j hlt]; rfl) h0
    · exact hI.fresh j hlt
  · intro j
    rw [setEvidence_evidences]
    split
    · exact hI.victimNotReq evidenceId
    · exact hI.victimNotReq j
  · intro j
    rw [setEvidence_evidences]
    split
    · exact hI.victimNotPR evidenceId
    · exact hI.victimNotPR j
  · intro j
    rw [setEvidence_evidences]
    split
    · exact hI.victimNotGU evidenceId
    · exact hI.victimNotGU j
  · intro j u
    rw [setEvidence_evidences]
    split
    · by_cases hu : u = user
      · subst hu
        simp
      · simpa [hu] using hI.excl evidenceId u
    · exact hI.excl j u

theorem ledgerInv_execOp {s : ContractState} (hI : LedgerInv s) (op : Op) :
    LedgerInv (execOp s op).1 := by
  cases op with
  | submit sender h k d t => exact ledgerInv_submit hI sender h k d t
  | request sender evidenceId =>
      simp only [execOp]
      cases hr : requestAccess s sender evidenceId with
      | ok r =>
          obtain ⟨s', evs⟩ := r
          exact ledgerInv_request hI hr
      | error e => exact hI
  | grant sender evidenceId user =>
      simp only [execOp]
      cases hr : grantAccess s sender evidenceId user with
      | ok r =>
          obtain ⟨s', evs⟩ := r
          exact ledgerInv_grant hI hr
      | error e => exact hI
  | reject sender evidenceId user =>
      simp only [execOp]
      cases hr : rejectAccess s sender evidenceId user with
      | ok r =>
          obtain ⟨s', evs⟩ := r
          exact ledgerInv_reject hI hr
      | error e => exact hI
  | revoke sender evidenceId user =>
      simp only [execOp]
      cases hr : revokeAccess s sender evidenceId user with
      | ok r =>
          obtain ⟨s', evs⟩ := r
          exact ledgerInv_revoke hI hr
      | error e => exact hI

theorem ledgerInv_execTrace {s : ContractState} (hI : LedgerInv s) (ops : List Op) :
    LedgerInv (execTrace s ops) := by
  induction ops generalizing s with
  | nil => exact hI
  | cons op ops ih => exact ih (ledgerInv_execOp hI op)

/-- C3 (counterexample): after `submit; requestAccess by 2; grantAccess to 2`
the user 2 appears in BOTH the `permissionRequests` and the `grantedUsers`
enumerations of record 1, so the two collections are not disjoint and
`permissionRequests` holds a stale entry for a user no longer pending. -/
theorem pending_granted_arrays_overlap :
    2 ∈ ((execTrace initialState
        [Op.submit 1 "Qm123" "key1" "desc" 0, Op.request 2 1,
         Op.grant 1 1 2]).evidences 1).permissionRequests ∧
    2 ∈ ((execTrace initialState
        [Op.submit 1 "Qm123" "key1" "desc" 0, Op.request 2 1,
         Op.grant 1 1 2]).evidences 1).grantedUsers :=
  ⟨by decide, by decide⟩

/-- C3 (amended): what does hold after every operation sequence is mutual
exclusion of the underlying per-user flags: no user is simultaneously
request-flagged (`Pending`) and permission-flagged (`Granted`) on the same
record.  The enumeration arrays themselves are append-only and may keep
stale entries. -/
theorem pending_granted_flags_exclusive (ops : List Op) (evidenceId : Nat)
    (u : Address) :
    (((execTrace initialState ops).evidences evidenceId).hasRequested u
      && ((execTrace initialState ops).evidences evidenceId).accessPermissions u)
      = false :=
  (ledgerInv_execTrace ledgerInv_initial ops).excl evidenceId u

/-- C7: in every reachable state, an existing evidence record's victim
(owner) has permission — `hasAccessPermission` returns `ok true` — and the
victim never appears in `permissionRequests` or `grantedUsers`. -/
theorem owner_always_has_permission (ops : List Op) (evidenceId : Nat)
    (hex : ((execTrace initialState ops).evidences evidenceId).victim ≠ 0) :
    hasAccessPermission (execTrace initialState ops) evidenceId
        ((execTrace initialState ops).evidences evidenceId).victim = .ok true ∧
    ((execTrace initialState ops).evidences evidenceId).victim ∉
        ((execTrace initialState ops).evidences evidenceId).permissionRequests ∧
    ((execTrace initialState ops).evidences evidenceId).victim ∉
        ((execTrace initialState ops).evidences evidenceId).grantedUsers := by
  have hI := ledgerInv_execTrace ledgerInv_initial ops
  refine ⟨?_, hI.victimNotPR evidenceId, hI.victimNotGU evidenceId⟩
  simp [hasAccessPermission, hex]

/-- Witness for C7 at a concrete trace: one submission by address 1. -/
theorem owner_always_has_permission_witness :
    hasAccessPermission (execTrace initialState [Op.submit 1 "Qm123" "key1" "desc" 0]) 1
        ((execTrace initialState [Op.submit 1 "Qm123" "key1" "desc" 0]).evidences 1).victim
        = .ok true ∧
    ((execTrace initialState [Op.submit 1 "Qm123" "key1" "desc" 0]).evidences 1).victim ∉
        ((execTrace initialState [Op.submit 1 "Qm123" "key1" "desc" 0]).evidences 1).permissionRequests ∧
    ((execTrace initialState [Op.submit 1 "Qm123" "key1" "desc" 0]).evidences 1).victim ∉
        ((execTrace initialState [Op.submit 1 "Qm123" "key1" "desc" 0]).evidences 1).grantedUsers :=
  owner_always_has_permission [Op.submit 1 "Qm123" "key1" "desc" 0] 1 (by decide)

/-- C9: a call that fails one of its checks leaves the whole contract
storage unchanged and emits no event. -/
theorem failed_call_has_no_effects (s : ContractState) (op : Op) (err : String)
    (h : (execOp s op).2.2 = some err) :
    (execOp s op).1 = s ∧ (execOp s op).2.1 = ([] : List Event) := by
  cases op with
  | submit sender hh k d t => exact absurd h (by simp [execOp])
  | request sender evidenceId =>
      simp only [execOp] at h ⊢
      cases hr : requestAccess s sender evidenceId with
      | ok r =>
          obtain ⟨s', evs⟩ := r
          rw [hr] at h
          simp at h
      | error e =>
          exact ⟨rfl, rfl⟩
  | grant sender evidenceId user =>
      simp only [execOp] at h ⊢
      cases hr : grantAccess s sender evidenceId user with
      | ok r =>
          obtain ⟨s', evs⟩ := r
          rw [hr] at h
          simp at h
      | error e =>
          exact ⟨rfl, rfl⟩
  | reject sender evidenceId user =>
      simp only [execOp] at h ⊢
      cases hr : rejectAccess s sender evidenceId user with
      | ok r =>
          obtain ⟨s', evs⟩ := r
          rw [hr] at h
          simp at h
      | error e =>
          exact ⟨rfl, rfl⟩
  | revoke sender evidenceId user =>
      simp only [execOp] at h ⊢
      cases hr : revokeAccess s sender evidenceId user with
      | ok r =>
          obtain ⟨s', evs⟩ := r
          rw [hr] at h
          simp at h
      | error e =>
          exact ⟨rfl, rfl⟩

/-- Witness for C9: `requestAccess` on the fresh contract reverts with
"Evidence does not exist" and has no effects. -/
theorem failed_call_has_no_effects_witness :
    (execOp initialState (Op.request 1 1)).1 = initialState ∧
    (execOp initialState (Op.request 1 1)).2.1 = ([] : List Event) :=
  failed_call_has_no_effects initialState (Op.request 1 1)
    "Evidence does not exist" (by rfl)

/-- C4: contrary to the claim, `revokeAccess` of the main (second) contract
performs no "not-granted" check: called by the victim on user 2, who never
requested nor was granted access on record 1, it succeeds and emits
`AccessRevoked`; the first contract variant in the same source file instead
reverts with "User has no access to revoke" on the same input. -/
theorem revokeAccess_unchecked_vs_checked :
    (execOp ((execOp initialState (Op.submit 1 "Qm123" "key1" "desc" 0)).1)
        (Op.revoke 1 1 2)).2.2 = none ∧
    (execOp ((execOp initialState (Op.submit 1 "Qm123" "key1" "desc" 0)).1)
        (Op.revoke 1 1 2)).2.1 = [Event.AccessRevoked 1 2] ∧
    revokeAccessChecked ((execOp initialState (Op.submit 1 "Qm123" "key1" "desc" 0)).1)
        1 1 2 = .error "User has no access to revoke" :=
  ⟨rfl, rfl, rfl⟩

/-- C1 (counterexample): evidence submitted with empty `ipfsHash` and
`encryptedKey` is returned with empty sensitive fields even to its owner,
who does have permission — so "returned fields empty iff no permission"
fails as an iff. -/
theorem getEvidence_redaction_empty_fields :
    getEvidence ((execOp initialState (Op.submit 1 "" "" "desc" 0)).1) 1 1
      = .ok { id := 1, victim := 1, ipfsHash := "", encryptedKey := "",
              timestamp := 0, description := "desc", isActive := true,
              hasAccess := true, hasRequested := false } ∧
    hasAccessPermission ((execOp initialState (Op.submit 1 "" "" "desc" 0)).1) 1 1
      = .ok true :=
  ⟨rfl, rfl⟩

/-- C2 (counterexample): after the owner grants access to user 2, the grant
has succeeded and `hasAccessPermission` is true, yet user 2 STILL appears
in the `getPermissionRequests` enumeration — `grantAccess` never removes
entries from `permissionRequests`. -/
theorem grantAccess_keeps_request_entry :
    traceOk initialState
        [Op.submit 1 "Qm123" "key1" "desc" 0, Op.request 2 1, Op.grant 1 1 2] = true ∧
    getPermissionRequests (execTrace initialState
        [Op.submit 1 "Qm123" "key1" "desc" 0, Op.request 2 1, Op.grant 1 1 2]) 1 1
      = .ok [2] ∧
    hasAccessPermission (execTrace initialState
        [Op.submit 1 "Qm123" "key1" "desc" 0, Op.request 2 1, Op.grant 1 1 2]) 1 2
      = .ok true :=
  ⟨rfl, rfl, rfl⟩

/-- C5 (counterexample): request, reject, request again — every call
succeeds and user 2 now occurs TWICE in `permissionRequests`: a repeat
request after a rejection does create a duplicate entry. -/
theorem requestAccess_duplicate_entry :
    traceOk initialState
        [Op.submit 1 "Qm123" "key1" "desc" 0, Op.request 2 1,
         Op.reject 1 1 2, Op.request 2 1] = true ∧
    getPermissionRequests (execTrace initialState
        [Op.submit 1 "Qm123" "key1" "desc" 0, Op.request 2 1,
         Op.reject 1 1 2, Op.request 2 1]) 1 1 = .ok [2, 2] :=
  ⟨rfl, rfl⟩

/-- C6 (counterexample): the cycle request-grant-revoke-request succeeds,
but afterwards user 2 is STILL enumerated by `getGrantedUsers` — revocation
never removes entries from the `grantedUsers` array. -/
theorem cycle_residual_grantedUsers :
    traceOk initialState
        [Op.submit 1 "Qm123" "key1" "desc" 0, Op.request 2 1, Op.grant 1 1 2,
         Op.revoke 1 1 2, Op.request 2 1] = true ∧
    getGrantedUsers (execTrace initialState
        [Op.submit 1 "Qm123" "key1" "desc" 0, Op.request 2 1, Op.grant 1 1 2,
         Op.revoke 1 1 2, Op.request 2 1]) 1 1 = .ok [2] :=
  ⟨rfl, rfl⟩

theorem submitEvidence_ret (s : ContractState) (sender : Address)
    (h k d : String) (t : Nat) :
    (submitEvidence s sender h k d t).2.2 = s.evidenceCounter + 1 := rfl

theorem execOp_counter (s : ContractState) (op : Op) :
    (execOp s op).1.evidenceCounter
      = match op with
        | .submit .. => s.evidenceCounter + 1
        | _ => s.evidenceCounter := by
  cases op with
  | submit sender h k d t => rfl
  | request sender evidenceId =>
      simp only [execOp]
      cases hr : requestAccess s sender evidenceId with
      | ok r =>
          obtain ⟨s', evs⟩ := r
          obtain ⟨-, -, -, -, hs, -⟩ := requestAccess_ok hr
          rw [hs]
          rfl
      | error e => rfl
  | grant sender evidenceId user =>
      simp only [execOp]
      cases hr : grantAccess s sender evidenceId user with
      | ok r =>
          obtain ⟨s', evs⟩ := r
          obtain ⟨-, -, -, hs, -⟩ := grantAccess_ok hr
          rw [hs]
          rfl
      | error e => rfl
  | reject sender evidenceId user =>
      simp only [execOp]
      cases hr : rejectAccess s sender evidenceId user with
      | ok r =>
          obtain ⟨s', evs⟩ := r
          obtain ⟨-, -, -, hs, -⟩ := rejectAccess_ok hr
          rw [hs]
          rfl
      | error e => rfl
  | revoke sender evidenceId user =>
      simp only [execOp]
      cases hr : revokeAccess s sender evidenceId user with
      | ok r =>
          obtain ⟨s', evs⟩ := r
          obtain ⟨-, -, hs, -⟩ := revokeAccess_ok hr
          rw [hs]
          rfl
      | error e => rfl

theorem submitIds_range' (s : ContractState) (ops : List Op) :
    submitIds s ops = List.range' (s.evidenceCounter + 1) (numSubmits ops) := by
  induction ops generalizing s with
  | nil => rfl
  | cons op ops ih =>
      cases op with
      | submit sender h k d t =>
          simp only [submitIds, numSubmits, submitEvidence_ret]
          rw [ih, submitEvidence_counter, List.range'_succ]
      | request sender evidenceId =>
          simp only [submitIds, numSubmits]
          rw [ih, execOp_counter]
      | grant sender evidenceId user =>
          simp only [submitIds, numSubmits]
          rw [ih, execOp_counter]
      | reject sender evidenceId user =>
          simp only [submitIds, numSubmits]
          rw [ih, execOp_counter]
      | revoke sender evidenceId user =>
          simp only [submitIds, numSubmits]
          rw [ih, execOp_counter]

/-- C8: across any sequence of calls, the ids returned by the
`submitEvidence` calls are exactly `1, 2, ..., n` in order — strictly
increasing consecutive integers starting at 1, so no id is ever reused or
assigned to two records. -/
theorem submit_ids_consecutive_from_one (ops : List Op) :
    submitIds initialState ops = List.range' 1 (numSubmits ops) ∧
    (submitIds initialState ops).Pairwise (· < ·) := by
  have h := submitIds_range' initialState ops
  refine ⟨h, ?_⟩
  rw [h]
  exact List.pairwise_lt_range' ..

theorem execTrace_append (s : ContractState) (ops : List Op) (op : Op) :
    execTrace s (ops ++ [op]) = (execOp (execTrace s ops) op).1 := by
  induction ops generalizing s with
  | nil => rfl
  | cons o os ih => exact ih _

theorem execOp_PR_extend {s : ContractState} (hI : LedgerInv s) (op : Op)
    (evidenceId : Nat) :
    ∃ t, ((execOp s op).1.evidences evidenceId).permissionRequests
      = (s.evidences evidenceId).permissionRequests ++ t := by
  cases op with
  | submit sender h k d t =>
      by_cases hc : evidenceId = s.evidenceCounter + 1
      · subst hc
        have he := hI.fresh (s.evidenceCounter + 1) (Nat.lt_succ_self _)
        refine ⟨[], ?_⟩
        show ((submitEvidence s sender h k d t).1.evidences
            (s.evidenceCounter + 1)).permissionRequests = _
        rw [submitEvidence_evidences, if_pos rfl, he]
        rfl
      · refine ⟨[], ?_⟩
        show ((submitEvidence s sender h k d t).1.evidences
            evidenceId).permissionRequests = _
        rw [submitEvidence_evidences, if_neg hc]
        simp
  | request sender j =>
      simp only [execOp]
      cases hr : requestAccess s sender j with
      | error e => exact ⟨[], by simp⟩
      | ok r =>
          obtain ⟨s', evs⟩ := r
          obtain ⟨-, -, -, -, hs, -⟩ := requestAccess_ok hr
          subst hs
          by_cases hc : evidenceId = j
          · subst hc
            exact ⟨[sender], by rw [setEvidence_evidences, if_pos rfl]⟩
          · exact ⟨[], by rw [setEvidence_evidences, if_neg hc]; simp⟩
  | grant sender j user =>
      simp only [execOp]
      cases hr : grantAccess s sender j user with
      | error e => exact ⟨[], by simp⟩
      | ok r =>
          obtain ⟨s', evs⟩ := r
          obtain ⟨-, -, -, hs, -⟩ := grantAccess_ok hr
          subst hs
          by_cases hc : evidenceId = j
          · subst hc
            exact ⟨[], by rw [setEvidence_evidences, if_pos rfl]; simp⟩
          · exact ⟨[], by rw [setEvidence_evidences, if_neg hc]; simp⟩
  | reject sender j user =>
      simp only [execOp]
      cases hr : rejectAccess s sender j user with
      | error e => exact ⟨[], by simp⟩
      | ok r =>
          obtain ⟨s', evs⟩ := r
          obtain ⟨-, -, -, hs, -⟩ := rejectAccess_ok hr
          subst hs
          by_cases hc : evidenceId = j
          · subst hc
            exact ⟨[], by rw [setEvidence_evidences, if_pos rfl]; simp⟩
          · exact ⟨[], by rw [setEvidence_evidences, if_neg hc]; simp⟩
  | revoke sender j user =>
      simp only [execOp]
      cases hr : revokeAccess s sender j user with
      | error e => exact ⟨[], by simp⟩
      | ok r =>
          obtain ⟨s', evs⟩ := r
          obtain ⟨-, -, hs, -⟩ := revokeAccess_ok hr
          subst hs
          by_cases hc : evidenceId = j
          · subst hc
            exact ⟨[], by rw [setEvidence_evidences, if_pos rfl]; simp⟩
          · exact ⟨[], by rw [setEvidence_evidences, if_neg hc]; simp⟩

/-- C10: along every reachable step the `permissionRequests` array only
ever grows — no call removes an identity from it; consequently a user who
requests, is rejected, and requests again occurs twice in the sequence
returned by `getPermissionRequests`. -/
theorem permissionRequests_append_only :
    (∀ (ops : List Op) (op : Op) (evidenceId : Nat), ∃ t,
      ((execTrace initialState (ops ++ [op])).evidences evidenceId).permissionRequests
        = ((execTrace initialState ops).evidences evidenceId).permissionRequests ++ t) ∧
    getPermissionRequests (execTrace initialState
        [Op.submit 1 "Qm123" "key1" "desc" 0, Op.request 2 1,
         Op.reject 1 1 2, Op.request 2 1]) 1 1 = .ok [2, 2] := by
  constructor
  · intro ops op evidenceId
    rw [execTrace_append]
    exact execOp_PR_extend (ledgerInv_execTrace ledgerInv_initial ops) op evidenceId
  · rfl

/-- C1 (amended): `getEvidence` returns the stored `ipfsHash`/`encryptedKey`
exactly when the caller has permission and empty strings otherwise; hence
for a record whose stored sensitive fields are nonempty, the returned
fields are empty iff `hasAccessPermission` is false. -/
theorem getEvidence_redaction (s : ContractState) (sender : Address)
    (evidenceId : Nat)
    (hex : (s.evidences evidenceId).victim ≠ 0)
    (hh : (s.evidences evidenceId).ipfsHash ≠ "")
    (hk : (s.evidences evidenceId).encryptedKey ≠ "") :
    ∃ v b, getEvidence s sender evidenceId = .ok v ∧
      hasAccessPermission s evidenceId sender = .ok b ∧
      v.ipfsHash = (if b then (s.evidences evidenceId).ipfsHash else "") ∧
      v.encryptedKey = (if b then (s.evidences evidenceId).encryptedKey else "") ∧
      ((v.ipfsHash = "" ∧ v.encryptedKey = "") ↔ b = false) := by
  have hget : getEvidence s sender evidenceId = .ok
      { id := (s.evidences evidenceId).id,
        victim := (s.evidences evidenceId).victim,
        ipfsHash := if (sender = (s.evidences evidenceId).victim
            || (s.evidences evidenceId).accessPermissions sender) then
            (s.evidences evidenceId).ipfsHash else "",
        encryptedKey := if (sender = (s.evidences evidenceId).victim
            || (s.evidences evidenceId).accessPermissions sender) then
            (s.evidences evidenceId).encryptedKey else "",
        timestamp := (s.evidences evidenceId).timestamp,
        description := (s.evidences evidenceId).description,
        isActive := (s.evidences evidenceId).isActive,
        hasAccess := (sender = (s.evidences evidenceId).victim
            || (s.evidences evidenceId).accessPermissions sender),
        hasRequested := (s.evidences evidenceId).hasRequested sender } := by
    unfold getEvidence
    rw [if_neg hex]
  have hacc : hasAccessPermission s evidenceId sender
      = .ok ((s.evidences evidenceId).victim = sender
             || (s.evidences evidenceId).accessPermissions sender) := by
    unfold hasAccessPermission
    rw [if_neg hex]
  refine ⟨_, _, hget, hacc, ?_, ?_, ?_⟩
  · by_cases hvs : (s.evidences evidenceId).victim = sender
    · simp [hvs]
    · simp [hvs, Ne.symm hvs]
  · by_cases hvs : (s.evidences evidenceId).victim = sender
    · simp [hvs]
    · simp [hvs, Ne.symm hvs]
  · by_cases hvs : (s.evidences evidenceId).victim = sender
    · simp [hvs, hh, hk]
    · by_cases hp : (s.evidences evidenceId).accessPermissions sender = true
      · simp [hvs, Ne.symm hvs, hp, hh, hk]
      · simp [hvs, Ne.symm hvs, hp]

/-- Witness for C1: caller 2 without permission on a record with nonempty
stored fields gets empty fields back. -/
theorem getEvidence_redaction_witness :
    ∃ v b, getEvidence ((execOp initialState (Op.submit 1 "Qm123" "key1" "desc" 0)).1) 2 1
        = .ok v ∧
      hasAccessPermission ((execOp initialState (Op.submit 1 "Qm123" "key1" "desc" 0)).1) 1 2
        = .ok b ∧
      v.ipfsHash = (if b then
        (((execOp initialState (Op.submit 1 "Qm123" "key1" "desc" 0)).1).evidences 1).ipfsHash
        else "") ∧
      v.encryptedKey = (if b then
        (((execOp initialState (Op.submit 1 "Qm123" "key1" "desc" 0)).1).evidences 1).encryptedKey
        else "") ∧
      ((v.ipfsHash = "" ∧ v.encryptedKey = "") ↔ b = false) :=
  getEvidence_redaction _ 2 1 (by decide) (by decide) (by decide)

/-- C2 (amended): `grantAccess` called by the owner succeeds iff the user is
request-flagged (state Pending); afterwards the user is in `grantedUsers`,
is no longer Pending and `hasAccessPermission` is true — but the user is
NOT removed from the `permissionRequests` array, which is left unchanged. -/
theorem grantAccess_spec (s : ContractState) (sender user : Address)
    (evidenceId : Nat)
    (hvic : (s.evidences evidenceId).victim = sender)
    (h0 : sender ≠ 0) :
    ((∃ r, grantAccess s sender evidenceId user = .ok r)
        ↔ (s.evidences evidenceId).hasRequested user = true) ∧
    (∀ s' evs, grantAccess s sender evidenceId user = .ok (s', evs) →
      user ∈ (s'.evidences evidenceId).grantedUsers ∧
      (s'.evidences evidenceId).hasRequested user = false ∧
      hasAccessPermission s' evidenceId user = .ok true ∧
      (s'.evidences evidenceId).permissionRequests
        = (s.evidences evidenceId).permissionRequests) := by
  constructor
  · constructor
    · rintro ⟨⟨s', evs⟩, hr⟩
      exact (grantAccess_ok hr).2.2.1
    · intro hreq
      rw [grantAccess_ok_of hvic (by rw [hvic]; exact h0) hreq]
      exact ⟨_, rfl⟩
  · intro s' evs hr
    obtain ⟨-, -, hreq, hs, -⟩ := grantAccess_ok hr
    subst hs
    refine ⟨?_, ?_, ?_, ?_⟩
    · rw [setEvidence_evidences, if_pos rfl]
      simp
    · rw [setEvidence_evidences, if_pos rfl]
      simp
    · unfold hasAccessPermission
      rw [setEvidence_evidences, if_pos rfl]
      simp [hvic, h0]
    · rw [setEvidence_evidences, if_pos rfl]

/-- Witness for C2 after `submit` by 1 and `requestAccess` by 2. -/
theorem grantAccess_spec_witness :
    ((∃ r, grantAccess (execTrace initialState
        [Op.submit 1 "Qm123" "key1" "desc" 0, Op.request 2 1]) 1 1 2 = .ok r)
      ↔ ((execTrace initialState
        [Op.submit 1 "Qm123" "key1" "desc" 0, Op.request 2 1]).evidences 1).hasRequested 2
          = true) ∧
    (∀ s' evs, grantAccess (execTrace initialState
        [Op.submit 1 "Qm123" "key1" "desc" 0, Op.request 2 1]) 1 1 2 = .ok (s', evs) →
      2 ∈ (s'.evidences 1).grantedUsers ∧
      (s'.evidences 1).hasRequested 2 = false ∧
      hasAccessPermission s' 1 2 = .ok true ∧
      (s'.evidences 1).permissionRequests
        = ((execTrace initialState
            [Op.submit 1 "Qm123" "key1" "desc" 0, Op.request 2 1]).evidences 1).permissionRequests) :=
  grantAccess_spec _ 1 2 1 (by decide) (by decide)

/-- C5 (amended): `requestAccess` fails exactly as claimed (unknown record,
self-request, already pending, already granted); on success the requester
becomes Pending and exactly one entry is appended to `permissionRequests` —
no duplicate can arise while the user is already Pending, but the appended
entry MAY duplicate an older entry left over from a rejected or revoked
cycle (cf. C10). -/
theorem requestAccess_spec (s : ContractState) (sender : Address)
    (evidenceId : Nat) :
    ((s.evidences evidenceId).victim = 0 →
      requestAccess s sender evidenceId = .error "Evidence does not exist") ∧
    ((s.evidences evidenceId).victim ≠ 0 →
      (s.evidences evidenceId).victim = sender →
      requestAccess s sender evidenceId = .error "Victim already has access") ∧
    ((s.evidences evidenceId).victim ≠ 0 →
      (s.evidences evidenceId).victim ≠ sender →
      (s.evidences evidenceId).hasRequested sender = true →
      requestAccess s sender evidenceId = .error "Already requested") ∧
    ((s.evidences evidenceId).victim ≠ 0 →
      (s.evidences evidenceId).victim ≠ sender →
      (s.evidences evidenceId).hasRequested sender = false →
      (s.evidences evidenceId).accessPermissions sender = true →
      requestAccess s sender evidenceId = .error "Already granted") ∧
    ((s.evidences evidenceId).victim ≠ 0 →
      (s.evidences evidenceId).victim ≠ sender →
      (s.evidences evidenceId).hasRequested sender = false →
      (s.evidences evidenceId).accessPermissions sender = false →
      ∃ s', requestAccess s sender evidenceId
          = .ok (s', [Event.AccessRequested evidenceId sender]) ∧
        (s'.evidences evidenceId).hasRequested sender = true ∧
        (s'.evidences evidenceId).permissionRequests
          = (s.evidences evidenceId).permissionRequests ++ [sender] ∧
        ((s'.evidences evidenceId).permissionRequests).count sender
          = ((s.evidences evidenceId).permissionRequests).count sender + 1) := by
  refine ⟨?_, ?_, ?_, ?_, ?_⟩
  · intro h1
    simp [requestAccess, h1]
  · intro h1 h2
    simp only [requestAccess]
    rw [if_neg h1, if_pos h2]
  · intro h1 h2 h3
    simp [requestAccess, h1, h2, h3]
  · intro h1 h2 h3 h4
    simp [requestAccess, h1, h2, h3, h4]
  · intro h1 h2 h3 h4
    refine ⟨_, requestAccess_ok_of h1 h2 h3 h4, ?_, ?_, ?_⟩
    · rw [setEvidence_evidences, if_pos rfl]
      simp
    · rw [setEvidence_evidences, if_pos rfl]
    · rw [setEvidence_evidences, if_pos rfl]
      simp

/-- Witness for C5: the already-pending error case after `submit` by 1 and
`requestAccess` by 2. -/
theorem requestAccess_spec_witness :
    requestAccess (execTrace initialState
        [Op.submit 1 "Qm123" "key1" "desc" 0, Op.request 2 1]) 2 1
      = .error "Already requested" :=
  (requestAccess_spec (execTrace initialState
        [Op.submit 1 "Qm123" "key1" "desc" 0, Op.request 2 1]) 2 1).2.2.1
    (by decide) (by decide) (by decide)

/-- C6 (amended): from a clean state (non-owner `u` neither pending nor
granted), the cycle request → grant → revoke → request succeeds in full and
returns `u` to Pending with the permission flag cleared — but `u` keeps a
residual entry in the `grantedUsers` array, which revocation never purges. -/
theorem request_grant_revoke_request_cycle (s : ContractState) (o u : Address)
    (evidenceId : Nat)
    (hv : (s.evidences evidenceId).victim = o) (ho : o ≠ 0) (hu : u ≠ o)
    (hr : (s.evidences evidenceId).hasRequested u = false)
    (hp : (s.evidences evidenceId).accessPermissions u = false) :
    traceOk s [Op.request u evidenceId, Op.grant o evidenceId u,
               Op.revoke o evidenceId u, Op.request u evidenceId] = true ∧
    ((execTrace s [Op.request u evidenceId, Op.grant o evidenceId u,
        Op.revoke o evidenceId u, Op.request u evidenceId]).evidences
        evidenceId).hasRequested u = true ∧
    ((execTrace s [Op.request u evidenceId, Op.grant o evidenceId u,
        Op.revoke o evidenceId u, Op.request u evidenceId]).evidences
        evidenceId).accessPermissions u = false ∧
    ((execTrace s [Op.request u evidenceId, Op.grant o evidenceId u,
        Op.revoke o evidenceId u, Op.request u evidenceId]).evidences
        evidenceId).grantedUsers
      = (s.evidences evidenceId).grantedUsers ++ [u] := by
  simp [traceOk, execTrace, execOp, requestAccess, grantAccess, revokeAccess,
        ContractState.setEvidence, hv, ho, Ne.symm hu, hu, hr, hp]

/-- Witness for C6: the cycle for user 2 on record 1 owned by 1. -/
theorem request_grant_revoke_request_cycle_witness :
    traceOk (execTrace initialState [Op.submit 1 "Qm123" "key1" "desc" 0])
        [Op.request 2 1, Op.grant 1 1 2, Op.revoke 1 1 2, Op.request 2 1] = true ∧
    ((execTrace (execTrace initialState [Op.submit 1 "Qm123" "key1" "desc" 0])
        [Op.request 2 1, Op.grant 1 1 2, Op.revoke 1 1 2, Op.request 2 1]).evidences
        1).hasRequested 2 = true ∧
    ((execTrace (execTrace initialState [Op.submit 1 "Qm123" "key1" "desc" 0])
        [Op.request 2 1, Op.grant 1 1 2, Op.revoke 1 1 2, Op.request 2 1]).evidences
        1).accessPermissions 2 = false ∧
    ((execTrace (execTrace initialState [Op.submit 1 "Qm123" "key1" "desc" 0])
        [Op.request 2 1, Op.grant 1 1 2, Op.revoke 1 1 2, Op.request 2 1]).evidences
        1).grantedUsers
      = (((execTrace initialState
          [Op.submit 1 "Qm123" "key1" "desc" 0]).evidences 1)).grantedUsers ++ [2] :=
  request_grant_revoke_request_cycle
    (execTrace initialState [Op.submit 1 "Qm123" "key1" "desc" 0]) 1 2 1
    (by decide) (by decide) (by decide) (by decide) (by decide)
